import Mathlib

/-!
Verification of the plane-decoding / rescaling pipeline of
`bioformats/omeroreader.py` (class `OmeroImageReader`).

The Python source is shallowly embedded below:

* the `PIXEL_TYPES` table and `pixelRange` are translated directly;
* `struct.unpack` with a big-endian fixed-width format is modelled by
  `decodePlane` (byte lists, two's-complement decoding); floating-point
  samples are represented by their wire bit patterns, so bit-exact
  round-trip statements stand in for IEEE value statements;
* `read_planes` is modelled with an explicit fetch oracle
  (`Fetch : Nat → Event → Except PlaneErr (List Nat)`, the raw-pixels-store
  collaborator) and an event trace recording resource acquisition,
  fetch requests (with the exact arguments the source passes), and release;
* `read` is modelled with its bounds validation (Python-2 ordering: `None`
  compares below every integer), the logged messages, the rescaling step
  `astype(float32) / float(max_value)` (values as exact rationals, the
  dtype tracked symbolically), and the `wants_max_intensity` pairing.
-/

namespace OmeroReader

/-- `struct` format characters used by the `PIXEL_TYPES` table
(source line 52-59: `b B h H i I f d`). -/
inductive StructFmt
  | b | B | h | H | i | I | f | d
deriving DecidableEq

/-- numpy dtypes appearing in the `PIXEL_TYPES` table. -/
inductive NumpyType
  | npInt8 | npUInt8 | npInt16 | npUInt16 | npInt32 | npUInt32 | npFloat32 | npFloat64
deriving DecidableEq

/-- The supported pixel-type names (keys of `PIXEL_TYPES`). -/
inductive PixelType
  | int8 | uint8 | int16 | uint16 | int32 | uint32 | float | double
deriving DecidableEq

/-- Source lines 40-45: `pixelRange(byte_width, signed)`. -/
def pixelRange (byte_width : Nat) (signed : Bool) : Int × Int :=
  let max_value : Int := 2 ^ (8 * byte_width)
  if signed then
    (-(max_value / 2), max_value / 2 - 1)
  else
    (0, max_value - 1)

/-- One row of the `PIXEL_TYPES` table: struct format char, numpy dtype,
and the `(min, max)` range. -/
structure PTEntry where
  fmt : StructFmt
  npType : NumpyType
  range : Int × Int
deriving DecidableEq

/-- Source lines 51-59: the `PIXEL_TYPES` table. -/
def PIXEL_TYPES : PixelType → PTEntry
  | .int8 => ⟨.b, .npInt8, pixelRange 1 true⟩
  | .uint8 => ⟨.B, .npUInt8, pixelRange 1 false⟩
  | .int16 => ⟨.h, .npInt16, pixelRange 2 true⟩
  | .uint16 => ⟨.H, .npUInt16, pixelRange 2 false⟩
  | .int32 => ⟨.i, .npInt32, pixelRange 4 true⟩
  | .uint32 => ⟨.I, .npUInt32, pixelRange 4 false⟩
  | .float => ⟨.f, .npFloat32, (0, 1)⟩
  | .double => ⟨.d, .npFloat64, (0, 1)⟩

/-- Byte width of one sample for a struct format char
(standard `struct` sizes, used via `calcsize` semantics of `unpack`). -/
def fmtSize : StructFmt → Nat
  | .b => 1 | .B => 1
  | .h => 2 | .H => 2
  | .i => 4 | .I => 4
  | .f => 4 | .d => 8

/-- Whether a struct format char denotes a signed integer encoding. -/
def fmtSigned : StructFmt → Bool
  | .b => true | .h => true | .i => true
  | _ => false

/-- Spec-side byte width of each pixel-type name, as the claim's formula
implies (int8/uint8 → 1, int16/uint16 → 2, int32/uint32 → 4 bytes). -/
def specByteWidth : PixelType → Nat
  | .int8 => 1 | .uint8 => 1
  | .int16 => 2 | .uint16 => 2
  | .int32 => 4 | .uint32 => 4
  | .float => 4 | .double => 8

/-- Spec-side signedness of each pixel-type name. -/
def specSigned : PixelType → Bool
  | .int8 => true | .int16 => true | .int32 => true
  | _ => false

/-- Spec-side floating flag of each pixel-type name. -/
def specIsFloat : PixelType → Bool
  | .float => true | .double => true
  | _ => false

/-- The domain formula exactly as the claim words it: signed integer types
get `(-(2^(8w))/2, (2^(8w))/2 - 1)`, unsigned `(0, 2^(8w) - 1)`, float and
double always `(0, 1)`. -/
def specDomain (pt : PixelType) : Int × Int :=
  if specIsFloat pt then (0, 1)
  else
    let w := specByteWidth pt
    if specSigned pt then
      (-((2 : Int) ^ (8 * w)) / 2, ((2 : Int) ^ (8 * w)) / 2 - 1)
    else
      (0, (2 : Int) ^ (8 * w) - 1)

/-- C3: for every supported pixel-type name, the registry's domain equals
the byte-width/signedness formula of the claim (signed: `(-(2^(8w))/2,
(2^(8w))/2 - 1)`, unsigned: `(0, 2^(8w) - 1)`, float/double: `(0, 1)`); in
particular `uint16 ↦ (0, 65535)` and `int16 ↦ (-32768, 32767)`. -/
theorem pixel_types_domain_formula :
    (∀ pt : PixelType, (PIXEL_TYPES pt).range = specDomain pt)
    ∧ (PIXEL_TYPES PixelType.uint16).range = (0, 65535)
    ∧ (PIXEL_TYPES PixelType.int16).range = (-32768, 32767) := by
  refine ⟨fun pt => ?_, by decide, by decide⟩
  cases pt <;> decide

/-! ## Byte-level decoding (`struct.unpack` with a big-endian format) -/

/-- Big-endian byte list to natural number (the value read by `unpack`
before any sign adjustment). -/
def bytesToNatBE (bs : List Nat) : Nat :=
  bs.foldl (fun acc d => acc * 256 + d) 0

/-- The `w` big-endian bytes of `n % 256^w` (the wire encoding of a
sample; the inverse direction of `unpack`, used to state round-trips). -/
def natToBEBytes : Nat → Nat → List Nat
  | 0, _ => []
  | w + 1, n => natToBEBytes w (n / 256) ++ [n % 256]

/-- One sample as `unpack` produces it for format char `fm`: read the
big-endian bytes, then two's-complement adjust for the signed integer
formats.  Floating formats are represented by their raw bit pattern
(a nonnegative integer), so float statements below are bit-exact. -/
def unpackSampleFmt (fm : StructFmt) (bs : List Nat) : Int :=
  let n := bytesToNatBE bs
  if fmtSigned fm = true ∧ 2 ^ (8 * fmtSize fm - 1) ≤ n then
    (n : Int) - 2 ^ (8 * fmtSize fm)
  else
    (n : Int)

/-- Wire encoding of one sample value for format char `fm`: the
`fmtSize fm` big-endian bytes of the value reduced mod `2^(8w)`
(two's complement for negative signed values). -/
def encodeSample (fm : StructFmt) (v : Int) : List Nat :=
  natToBEBytes (fmtSize fm) ((v % ((2 : Int) ^ (8 * fmtSize fm))).toNat)

/-- The representable sample values of a format char: the two's-complement
range for signed integer formats, `[0, 2^(8w))` for unsigned formats and
for floating formats (whose samples are bit patterns here). -/
def inDomain (fm : StructFmt) (v : Int) : Bool :=
  if fmtSigned fm = true then
    decide (-((2 : Int) ^ (8 * fmtSize fm - 1)) ≤ v ∧ v < (2 : Int) ^ (8 * fmtSize fm - 1))
  else
    decide (0 ≤ v ∧ v < (2 : Int) ^ (8 * fmtSize fm))

/-- Errors of the plane pipeline: `truncatedBuffer` models the
`struct.error` raised when the buffer length does not match
`count * size`; `fetchFailed` models a raw-store fetch raising. -/
inductive PlaneErr
  | fetchFailed
  | truncatedBuffer
deriving DecidableEq

/-- The first `n` chunks of `sz` bytes of a buffer (how `unpack`
splits the buffer into fixed-width samples). -/
def takeChunks (sz : Nat) : Nat → List Nat → List (List Nat)
  | 0, _ => []
  | k + 1, l => l.take sz :: takeChunks sz k (l.drop sz)

/-- `plane.resize(sizeY, sizeX)`: the flat sample list as `h` rows of
`w` samples, row-major. -/
def reshape (h w : Nat) (flat : List Int) : List (List Int) :=
  (List.range h).map (fun r => (flat.drop (r * w)).take w)

/-- Source lines 163-167: `unpack('>%d%s' % (sizeY*sizeX, fmt), raw)`
followed by `numpy.array(..., numpy_type)` and `resize(sizeY, sizeX)`.
`unpack` requires the buffer length to equal `count * size` and raises
`struct.error` otherwise. -/
def decodePlane (pt : PixelType) (w h : Nat) (raw : List Nat) :
    Except PlaneErr (List (List Int)) :=
  let fm := (PIXEL_TYPES pt).fmt
  if raw.length = h * w * fmtSize fm then
    Except.ok (reshape h w ((takeChunks (fmtSize fm) (h * w) raw).map (unpackSampleFmt fm)))
  else
    Except.error PlaneErr.truncatedBuffer

/-! ### Round-trip lemmas -/

theorem bytesToNatBE_append_singleton (xs : List Nat) (d : Nat) :
    bytesToNatBE (xs ++ [d]) = bytesToNatBE xs * 256 + d := by
  simp [bytesToNatBE, List.foldl_append]

theorem natToBEBytes_length (w n : Nat) : (natToBEBytes w n).length = w := by
  induction w generalizing n with
  | zero => rfl
  | succ w ih => simp [natToBEBytes, ih]

theorem bytesToNatBE_natToBEBytes (w n : Nat) :
    bytesToNatBE (natToBEBytes w n) = n % 256 ^ w := by
  induction w generalizing n with
  | zero => simp [natToBEBytes, bytesToNatBE, Nat.mod_one]
  | succ w ih =>
      rw [natToBEBytes, bytesToNatBE_append_singleton, ih]
      have hmul : n % (256 * 256 ^ w) = n % 256 + 256 * (n / 256 % 256 ^ w) :=
        Nat.mod_mul
      have hpow : (256 : Nat) ^ (w + 1) = 256 * 256 ^ w := by
        rw [Nat.pow_succ, Nat.mul_comm]
      rw [hpow, hmul]
      ring

theorem unpackSample_encodeSample (fm : StructFmt) (v : Int)
    (hv : inDomain fm v = true) :
    unpackSampleFmt fm (encodeSample fm v) = v := by
  have hsz : 1 ≤ fmtSize fm := by cases fm <;> decide
  -- abbreviations for the two powers, as Nat atoms
  have hKpos : 0 < (2 : Nat) ^ (8 * fmtSize fm) := Nat.pos_pow_of_pos _ (by norm_num)
  have h256 : (256 : Nat) ^ fmtSize fm = 2 ^ (8 * fmtSize fm) := by
    rw [show (256 : Nat) = 2 ^ 8 from rfl, ← pow_mul]
  have hcastK : (((2 : Nat) ^ (8 * fmtSize fm) : Nat) : Int) = (2 : Int) ^ (8 * fmtSize fm) := by
    push_cast
    ring
  have hcastH :
      (((2 : Nat) ^ (8 * fmtSize fm - 1) : Nat) : Int) = (2 : Int) ^ (8 * fmtSize fm - 1) := by
    push_cast
    ring
  have hKH : (2 : Nat) ^ (8 * fmtSize fm) = 2 * 2 ^ (8 * fmtSize fm - 1) := by
    have h8 : 8 * fmtSize fm - 1 + 1 = 8 * fmtSize fm := by omega
    calc (2 : Nat) ^ (8 * fmtSize fm) = 2 ^ (8 * fmtSize fm - 1 + 1) := by rw [h8]
      _ = 2 ^ (8 * fmtSize fm - 1) * 2 := pow_succ 2 _
      _ = 2 * 2 ^ (8 * fmtSize fm - 1) := by ring
  -- the integer modulus is the cast of the Nat power
  have hKne : (((2 : Nat) ^ (8 * fmtSize fm) : Nat) : Int) ≠ 0 := by
    exact_mod_cast Nat.pos_iff_ne_zero.mp hKpos
  have hKposI : (0 : Int) < (((2 : Nat) ^ (8 * fmtSize fm) : Nat) : Int) := by
    exact_mod_cast hKpos
  simp only [unpackSampleFmt, encodeSample, bytesToNatBE_natToBEBytes]
  rw [h256, ← hcastK]
  have hemod_nonneg : 0 ≤ v % (((2 : Nat) ^ (8 * fmtSize fm) : Nat) : Int) :=
    Int.emod_nonneg v hKne
  have hemod_lt :
      v % (((2 : Nat) ^ (8 * fmtSize fm) : Nat) : Int) <
        (((2 : Nat) ^ (8 * fmtSize fm) : Nat) : Int) :=
    Int.emod_lt_of_pos v hKposI
  have hmodK :
      (v % (((2 : Nat) ^ (8 * fmtSize fm) : Nat) : Int)).toNat % 2 ^ (8 * fmtSize fm) =
        (v % (((2 : Nat) ^ (8 * fmtSize fm) : Nat) : Int)).toNat :=
    Nat.mod_eq_of_lt (by omega)
  rw [hmodK]
  by_cases hs : fmtSigned fm = true
  · -- signed two's-complement case
    rw [inDomain, if_pos hs] at hv
    obtain ⟨hlo, hhi⟩ := of_decide_eq_true hv
    rw [← hcastH] at hlo hhi
    by_cases hneg : v < 0
    · -- negative value encodes as v + 2^(8w), decoded with the adjustment
      have hvM :
          v % (((2 : Nat) ^ (8 * fmtSize fm) : Nat) : Int) =
            v + (((2 : Nat) ^ (8 * fmtSize fm) : Nat) : Int) := by
        have h1 : (v + (((2 : Nat) ^ (8 * fmtSize fm) : Nat) : Int)) %
              (((2 : Nat) ^ (8 * fmtSize fm) : Nat) : Int) =
            v % (((2 : Nat) ^ (8 * fmtSize fm) : Nat) : Int) :=
          Int.add_emod_self
        have h2 :
            (v + (((2 : Nat) ^ (8 * fmtSize fm) : Nat) : Int)) %
                (((2 : Nat) ^ (8 * fmtSize fm) : Nat) : Int) =
              v + (((2 : Nat) ^ (8 * fmtSize fm) : Nat) : Int) := by
          apply Int.emod_eq_of_lt <;> omega
        omega
      rw [if_pos ⟨hs, by omega⟩]
      omega
    · -- nonnegative value below 2^(8w-1): no adjustment
      have hvM : v % (((2 : Nat) ^ (8 * fmtSize fm) : Nat) : Int) = v := by
        apply Int.emod_eq_of_lt (by omega) (by omega)
      rw [if_neg (fun hcc => by omega : ¬(fmtSigned fm = true ∧
        2 ^ (8 * fmtSize fm - 1) ≤ (v % (((2 : Nat) ^ (8 * fmtSize fm) : Nat) : Int)).toNat))]
      omega
  · -- unsigned or floating format: the value is its own bit pattern
    rw [inDomain, if_neg hs] at hv
    obtain ⟨hlo, hhi⟩ := of_decide_eq_true hv
    rw [← hcastK] at hhi
    have hvM : v % (((2 : Nat) ^ (8 * fmtSize fm) : Nat) : Int) = v :=
      Int.emod_eq_of_lt hlo hhi
    rw [if_neg (fun hcc => hs hcc.1)]
    omega

theorem length_flatMap_const {α : Type} (f : α → List Nat) (L : Nat)
    (hf : ∀ x, (f x).length = L) (vals : List α) :
    (vals.flatMap f).length = vals.length * L := by
  induction vals with
  | nil => simp
  | cons v vs ih => simp [List.flatMap_cons, ih, hf v, Nat.succ_mul, Nat.add_comm]

theorem takeChunks_flatMap {α : Type} (f : α → List Nat) (L : Nat)
    (hf : ∀ x, (f x).length = L) (vals : List α) :
    takeChunks L vals.length (vals.flatMap f) = vals.map f := by
  induction vals with
  | nil => rfl
  | cons v vs ih =>
      rw [List.flatMap_cons, List.length_cons, takeChunks,
        List.take_left' (hf v), List.drop_left' (hf v), ih, List.map_cons]

theorem reshape_getD (h w : Nat) (flat : List Int) (r j : Nat)
    (hr : r < h) (hj : j < w) :
    ((reshape h w flat).getD r []).getD j 0 = flat.getD (r * w + j) 0 := by
  have hrow : (reshape h w flat).getD r [] = (flat.drop (r * w)).take w := by
    rw [reshape, List.getD_eq_getElem?_getD, List.getElem?_map, List.getElem?_range hr]
    rfl
  rw [hrow, List.getD_eq_getElem?_getD, List.getElem?_take_of_lt hj, List.getElem?_drop,
    List.getD_eq_getElem?_getD]

/-- C2: for every supported pixel type, positive dimensions and in-domain
sample values, decoding the big-endian fixed-width encoding of the samples
reproduces them exactly as a `(height, width)` row-major array: the sample
at row `r`, column `j` is the original flat sample `r * w + j`, so the
first `w` samples form row 0.  Integer samples round-trip as values;
float/double samples round-trip as their wire bit patterns, which is
value-exactness for every representable float. -/
theorem decode_encode_roundtrip (pt : PixelType) (w h : Nat) (vals : List Int)
    (hw : 0 < w) (hh : 0 < h) (hlen : vals.length = h * w)
    (hdom : ∀ v ∈ vals, inDomain (PIXEL_TYPES pt).fmt v = true) :
    decodePlane pt w h (vals.flatMap (encodeSample (PIXEL_TYPES pt).fmt)) =
      Except.ok (reshape h w vals)
    ∧ ∀ r j, r < h → j < w →
        ((reshape h w vals).getD r []).getD j 0 = vals.getD (r * w + j) 0 := by
  have hfL : ∀ x : Int,
      (encodeSample (PIXEL_TYPES pt).fmt x).length = fmtSize (PIXEL_TYPES pt).fmt :=
    fun x => natToBEBytes_length _ _
  constructor
  · have hflen : (vals.flatMap (encodeSample (PIXEL_TYPES pt).fmt)).length =
        h * w * fmtSize (PIXEL_TYPES pt).fmt := by
      rw [length_flatMap_const _ _ hfL vals, hlen]
    rw [decodePlane, if_pos hflen]
    have hchunks : takeChunks (fmtSize (PIXEL_TYPES pt).fmt) (h * w)
        (vals.flatMap (encodeSample (PIXEL_TYPES pt).fmt)) =
          vals.map (encodeSample (PIXEL_TYPES pt).fmt) := by
      rw [← hlen]
      exact takeChunks_flatMap _ _ hfL vals
    rw [hchunks, List.map_map]
    have hid : vals.map (unpackSampleFmt (PIXEL_TYPES pt).fmt ∘
        encodeSample (PIXEL_TYPES pt).fmt) = vals.map id := by
      apply List.map_congr_left
      intro v hvmem
      exact unpackSample_encodeSample _ v (hdom v hvmem)
    rw [hid, List.map_id]
  · intro r j hr hj
    exact reshape_getD h w vals r j hr hj

/-- Concrete check of the C2 round-trip: an `int16` plane of width 2,
height 1 holding the samples `[-1, 300]`. -/
theorem decode_encode_roundtrip_witness :
    decodePlane PixelType.int16 2 1
      ([(-1 : Int), 300].flatMap (encodeSample (PIXEL_TYPES PixelType.int16).fmt)) =
      Except.ok (reshape 1 2 [(-1 : Int), 300])
    ∧ ((reshape 1 2 [(-1 : Int), 300]).getD 0 []).getD 1 0 = (300 : Int) := by
  have H := decode_encode_roundtrip PixelType.int16 2 1 [(-1 : Int), 300]
    (by decide) (by decide) (by decide) (by decide)
  exact ⟨H.1, by rw [H.2 0 1 (by decide) (by decide)]; decide⟩

/-! ## `read_planes` (source lines 141-176) -/

/-- Size and pixel-type metadata of the OMERO `pixels` object, as
`read_planes`/`read` consume it (`getSizeX().val` etc.). -/
structure PixelsMeta where
  sizeX : Nat
  sizeY : Nat
  sizeZ : Nat
  sizeC : Nat
  sizeT : Nat
  pixelType : PixelType
deriving DecidableEq

/-- Observable actions against the raw-pixels-store collaborator:
`acquire` is `session.createRawPixelsStore()`, `close` is
`raw_pixels_store.close()`, and the fetch events record the exact
arguments the source passes to `getPlane` / `getTile`. -/
inductive Event
  | acquire
  | close
  | fetchPlane (z : Int) (c : Option Int) (t : Int)
  | fetchTile (z : Int) (c : Option Int) (t : Int) (x y sx sy : Nat)
deriving DecidableEq

/-- A tile request `(x, y, width, height)`. -/
def Tile : Type := Nat × Nat × Nat × Nat

/-- The fetch collaborator: given the index of the fetch within the call
and the request, return the raw buffer or raise. -/
def Fetch : Type := Nat → Event → Except PlaneErr (List Nat)

/-- The `for channel in channels` loop of `read_planes` (lines 154-168).
Faithful to the source, each iteration passes the ORIGINAL argument `c`
to `getPlane`/`getTile` — the loop variable `channel` is unused in the
Python code — and appends the decoded plane.  The first raised error
aborts the loop. -/
def loopChannels (fetch : Fetch) (pt : PixelType) (sizeX sizeY : Nat)
    (z : Int) (c : Option Int) (t : Int) (tile : Option Tile) :
    List Int → Nat → List Event × Except PlaneErr (List (List (List Int)))
  | [], _ => ([], Except.ok [])
  | _ :: rest, k =>
      let sx := match tile with
        | none => sizeX
        | some (_, _, tw, _) => tw
      let sy := match tile with
        | none => sizeY
        | some (_, _, _, th) => th
      let ev := match tile with
        | none => Event.fetchPlane z c t
        | some (x, y, tw, th) => Event.fetchTile z c t x y tw th
      match fetch k ev with
      | Except.error e => ([ev], Except.error e)
      | Except.ok raw =>
          match decodePlane pt sx sy raw with
          | Except.error e => ([ev], Except.error e)
          | Except.ok plane =>
              let r := loopChannels fetch pt sizeX sizeY z c t tile rest (k + 1)
              (ev :: r.1,
               match r.2 with
               | Except.error e => Except.error e
               | Except.ok ps => Except.ok (plane :: ps))

/-- `numpy.dstack(planes)`: stack `h × w` planes along a new trailing
axis, so `result[y][x][i]` is `planes[i][y][x]`.  (`dstack` of an empty
list raises in numpy; the `[]` case here is unreachable totalization.) -/
def dstack (ps : List (List (List Int))) : List (List (List Int)) :=
  match ps with
  | [] => []
  | p :: _ =>
      (List.range p.length).map (fun y =>
        (List.range ((p.getD y []).length)).map (fun x =>
          ps.map (fun q => (q.getD y []).getD x 0)))

/-- The assembled value `read_planes` returns: a single plane when a
specific channel was requested, a channel-trailing stack otherwise. -/
inductive Assembled (α : Type)
  | one (p : List (List α))
  | stack (s : List (List (List α)))
deriving DecidableEq

/-- Elementwise map over an assembled image. -/
def mapAssembled {α β : Type} (f : α → β) : Assembled α → Assembled β
  | .one p => .one (p.map (fun row => row.map f))
  | .stack s => .stack (s.map (fun pl => pl.map (fun row => row.map f)))

/-- Lines 142-146: `channels = range(sizeC)` when `c is None`, else `[c]`. -/
def channelsOf (meta : PixelsMeta) (c : Option Int) : List Int :=
  match c with
  | none => (List.range meta.sizeC).map (fun k => (k : Int))
  | some cv => [cv]

/-- Source lines 141-176.  Returns the trace of raw-store events and the
Python return value: `Except.ok (some img)` on success, `Except.ok none`
when the `except Exception` arm swallowed a fetch/decode error and the
function fell through to an implicit `return None` (the store is closed
by `finally` either way); an `Except.error` would be an exception
escaping the call, which the source never allows. -/
def read_planes (meta : PixelsMeta) (fetch : Fetch) (z : Int) (c : Option Int)
    (t : Int) (tile : Option Tile) :
    List Event × Except PlaneErr (Option (Assembled Int)) :=
  let r := loopChannels fetch meta.pixelType meta.sizeX meta.sizeY z c t tile
    (channelsOf meta c) 0
  let trace := Event.acquire :: (r.1 ++ [Event.close])
  let res : Except PlaneErr (Option (Assembled Int)) :=
    match r.2 with
    | Except.error _ => Except.ok none
    | Except.ok planes =>
        match c with
        | none => Except.ok (some (Assembled.stack (dstack planes)))
        | some _ => Except.ok (some (Assembled.one (planes.headD [])))
  (trace, res)

theorem loopChannels_only_fetch (fetch : Fetch) (pt : PixelType) (sX sY : Nat)
    (z : Int) (c : Option Int) (t : Int) (tile : Option Tile) (chans : List Int) :
    ∀ k e, e ∈ (loopChannels fetch pt sX sY z c t tile chans k).1 →
      e ≠ Event.acquire ∧ e ≠ Event.close := by
  induction chans with
  | nil =>
      intro k e he
      simp [loopChannels] at he
  | cons ch rest ih =>
      intro k e he
      rcases tile with _ | ⟨x, y, tw, th⟩
      · simp only [loopChannels] at he
        rcases hfe : fetch k (Event.fetchPlane z c t) with e0 | raw <;>
          rw [hfe] at he <;> simp at he
        · subst he
          exact ⟨by simp, by simp⟩
        · rcases hde : decodePlane pt sX sY raw with e1 | plane <;>
            rw [hde] at he <;> simp at he
          · subst he
            exact ⟨by simp, by simp⟩
          · rcases he with he | he
            · subst he
              exact ⟨by simp, by simp⟩
            · exact ih (k + 1) e he
      · simp only [loopChannels] at he
        rcases hfe : fetch k (Event.fetchTile z c t x y tw th) with e0 | raw <;>
          rw [hfe] at he <;> simp at he
        · subst he
          exact ⟨by simp, by simp⟩
        · rcases hde : decodePlane pt tw th raw with e1 | plane <;>
            rw [hde] at he <;> simp at he
          · subst he
            exact ⟨by simp, by simp⟩
          · rcases he with he | he
            · subst he
              exact ⟨by simp, by simp⟩
            · exact ih (k + 1) e he

/-- C9: every `read_planes` call acquires the raw-pixels-store handle once
at the start and releases it exactly once at the very end of the trace, on
every exit path (success, decode error, fetch error): the trace is
`acquire :: mid ++ [close]` with no other acquire or close in `mid`. -/
theorem read_planes_store_discipline (meta : PixelsMeta) (fetch : Fetch)
    (z : Int) (c : Option Int) (t : Int) (tile : Option Tile) :
    ∃ mid, (read_planes meta fetch z c t tile).1 =
        Event.acquire :: (mid ++ [Event.close])
      ∧ Event.close ∉ mid ∧ Event.acquire ∉ mid := by
  refine ⟨(loopChannels fetch meta.pixelType meta.sizeX meta.sizeY z c t tile
    (channelsOf meta c) 0).1, rfl, fun hmem => ?_, fun hmem => ?_⟩
  · exact (loopChannels_only_fetch fetch meta.pixelType meta.sizeX meta.sizeY z c t tile
      (channelsOf meta c) 0 Event.close hmem).2 rfl
  · exact (loopChannels_only_fetch fetch meta.pixelType meta.sizeX meta.sizeY z c t tile
      (channelsOf meta c) 0 Event.acquire hmem).1 rfl

/-- C6 (amended): a fetch or decode failure on any channel makes the whole
`read_planes` call abort with no partial stacking — but the `except
Exception` arm (line 173) catches and logs the error instead of
re-raising, so no exception (no `PlaneFetchFailed`, no `(z, c, t)`
coordinate) ever propagates: the call returns Python `None`. -/
theorem read_planes_failure_swallowed (meta : PixelsMeta) (fetch : Fetch)
    (z : Int) (c : Option Int) (t : Int) (tile : Option Tile) :
    (∀ e, (read_planes meta fetch z c t tile).2 ≠ Except.error e)
    ∧ ∀ e, (loopChannels fetch meta.pixelType meta.sizeX meta.sizeY z c t tile
        (channelsOf meta c) 0).2 = Except.error e →
          (read_planes meta fetch z c t tile).2 = Except.ok none := by
  constructor
  · intro e
    rcases hr : (loopChannels fetch meta.pixelType meta.sizeX meta.sizeY z c t tile
      (channelsOf meta c) 0).2 with e0 | planes
    · simp [read_planes, hr]
    · rcases c with _ | cv <;> simp [read_planes, hr]
  · intro e he
    simp [read_planes, he]

/-- 3-channel 1x1 uint8 image used for the C6 scenario. -/
def mC6 : PixelsMeta := ⟨1, 1, 1, 3, 1, PixelType.uint8⟩

/-- Fetch oracle that raises on the second fetch of the call. -/
def fC6 : Fetch := fun k _ =>
  if k = 1 then Except.error PlaneErr.fetchFailed else Except.ok [7]

/-- C6 counterexample: with a 3-channel request whose second fetch raises,
`read_planes` returns normally with Python `None` (`Except.ok none`) —
the failure does NOT propagate to the caller as an exception carrying the
failing coordinate. -/
theorem read_planes_error_not_propagated :
    fC6 1 (Event.fetchPlane 0 none 0) = Except.error PlaneErr.fetchFailed
    ∧ (read_planes mC6 fC6 0 none 0 none).2 = Except.ok none :=
  ⟨rfl, rfl⟩

/-- Concrete instance of the amended C6 theorem on the same scenario. -/
theorem read_planes_failure_swallowed_witness :
    (read_planes mC6 fC6 0 none 0 none).2 = Except.ok none :=
  (read_planes_failure_swallowed mC6 fC6 0 none 0 none).2 PlaneErr.fetchFailed rfl

/-- 3-channel 1x1 uint8 image used for the C1 scenario. -/
def mC1 : PixelsMeta := ⟨1, 1, 1, 3, 1, PixelType.uint8⟩

/-- Fetch oracle whose response depends on the fetch index, so the three
responses are distinguishable. -/
def fC1 : Fetch := fun k _ => Except.ok [10 * k]

/-- C1: evaluating `read_planes` with `c = None` on a 3-channel image.
The loop runs 3 times, but — because line 158 passes the original `c`
(Python `None`) to `getPlane` instead of the loop variable `channel` —
every one of the 3 fetch events requests `(z, c=None, t)`; no fetch ever
names channel 0, 1 or 2, and trailing index `i` holds the `i`-th response
to that one repeated request, not channel `i`'s plane. -/
theorem read_planes_fetches_ignore_channel :
    read_planes mC1 fC1 0 none 0 none =
      ([Event.acquire, Event.fetchPlane 0 none 0, Event.fetchPlane 0 none 0,
        Event.fetchPlane 0 none 0, Event.close],
       Except.ok (some (Assembled.stack [[[0, 10, 20]]]))) := rfl

/-- C7: a raw buffer whose length differs from `width * height * byte_width`
fails to decode: `unpack` raises `struct.error` (modelled as
`truncatedBuffer`), the error value carries no samples (no partial decode),
and a `read_planes` call whose fetch delivers such a buffer yields no
plane at all. -/
theorem decode_truncated_buffer (pt : PixelType) (w h : Nat) (raw : List Nat)
    (hlen : raw.length ≠ h * w * fmtSize (PIXEL_TYPES pt).fmt) :
    decodePlane pt w h raw = Except.error PlaneErr.truncatedBuffer
    ∧ ∀ (meta : PixelsMeta) (fetch : Fetch) (z cv t : Int),
        meta.pixelType = pt → meta.sizeX = w → meta.sizeY = h →
        fetch 0 (Event.fetchPlane z (some cv) t) = Except.ok raw →
        (read_planes meta fetch z (some cv) t none).2 = Except.ok none := by
  constructor
  · rw [decodePlane, if_neg hlen]
  · intro meta fetch z cv t hpt hsx hsy hf
    subst hpt
    subst hsx
    subst hsy
    have hdec : decodePlane meta.pixelType meta.sizeX meta.sizeY raw =
        Except.error PlaneErr.truncatedBuffer := by
      rw [decodePlane, if_neg hlen]
    simp [read_planes, channelsOf, loopChannels, hf, hdec]

/-- 1x1 single-channel `uint16` image for the C7 scenario. -/
def mC7 : PixelsMeta := ⟨1, 1, 1, 1, 1, PixelType.uint16⟩

/-- Fetch oracle delivering a 1-byte buffer (a `uint16` plane needs 2). -/
def fC7 : Fetch := fun _ _ => Except.ok [1]

/-- Concrete check of C7: a 1-byte buffer for a 1x1 `uint16` plane fails
to decode and the enclosing `read_planes` call delivers no plane. -/
theorem decode_truncated_buffer_witness :
    decodePlane PixelType.uint16 1 1 [1] = Except.error PlaneErr.truncatedBuffer
    ∧ (read_planes mC7 fC7 0 (some 0) 0 none).2 = Except.ok none := by
  have H := decode_truncated_buffer PixelType.uint16 1 1 [1] (by decide)
  exact ⟨H.1, H.2 mC7 fC7 0 0 0 rfl rfl rfl rfl⟩

/-! ## `read` (source lines 178-238) -/

/-- The three indexed axes checked by `read`'s bounds validation. -/
inductive Axis
  | t | c | z
deriving DecidableEq

/-- The messages built and logged by the validation block (lines 208-219),
kept structured: each carries the axis, the requested value (for C the
Python object, possibly `None`) and the declared size. -/
inductive LogMsg
  | tExceeds (tv : Int) (sizeT : Nat)
  | cExceeds (cv : Option Int) (sizeC : Nat)
  | zExceeds (zv : Int) (sizeZ : Nat)
deriving DecidableEq

/-- Python-2 `>=` on an `int` left operand (`t >= sizeT`). -/
def pyGEInt (a : Int) (b : Nat) : Bool :=
  decide ((b : Int) ≤ a)

/-- Python-2 `>=` with a possibly-`None` left operand (`c >= sizeC`,
line 212): under Python 2's cross-type ordering, `None` is below every
integer, so the comparison is evaluated but never true for `None`. -/
def pyGEOpt (a : Option Int) (b : Nat) : Bool :=
  match a with
  | none => false
  | some v => decide ((b : Int) ≤ v)

/-- Result of the validation block: the comparisons the code evaluates
(always all three, in source order t, c, z), the `logger.error` calls
made, and the final value of the `message` variable (overwritten by each
failing check, so the LAST failing axis wins). -/
structure Validation where
  compared : List Axis
  logged : List LogMsg
  message : Option LogMsg
deriving DecidableEq

/-- Source lines 207-219.  The three `if` checks run unconditionally;
each failing check logs its own message and overwrites `message`. -/
def validate (meta : PixelsMeta) (c : Option Int) (z t : Int) : Validation :=
  let tBad := pyGEInt t meta.sizeT
  let cBad := pyGEOpt c meta.sizeC
  let zBad := pyGEInt z meta.sizeZ
  { compared := [Axis.t, Axis.c, Axis.z]
    logged :=
      (if tBad then [LogMsg.tExceeds t meta.sizeT] else []) ++
      (if cBad then [LogMsg.cExceeds c meta.sizeC] else []) ++
      (if zBad then [LogMsg.zExceeds z meta.sizeZ] else [])
    message :=
      if zBad then some (LogMsg.zExceeds z meta.sizeZ)
      else if cBad then some (LogMsg.cExceeds c meta.sizeC)
      else if tBad then some (LogMsg.tExceeds t meta.sizeT)
      else none }

/-- Line 197: `if c is None and index is not None: c = index`. -/
def resolveC (c0 index : Option Int) : Option Int :=
  match index with
  | none => c0
  | some iv =>
      match c0 with
      | none => some iv
      | some _ => c0

/-- Exceptions `read` can raise: the generic
`Exception("Couldn't retrieve a plane from OMERO image.")` of line 221,
and the `AttributeError` that line 234 raises when `read_planes` returned
`None` and `rescale` is on ( `None.astype` ).  `storeEscape` marks the
impossible case of an exception escaping `read_planes`. -/
inductive ReadErr
  | indexOutOfRange
  | noneTypeHasNoAstype
  | storeEscape
deriving DecidableEq

/-- The image value `read` returns: a native-dtype array untouched by
rescaling, a rescaled array of (exact-rational-modelled) float32 values,
or Python `None` passed through when `read_planes` failed and rescaling
was off. -/
inductive ReadImg
  | native (a : Assembled Int) (dt : NumpyType)
  | rescaled (a : Assembled ℚ) (dt : NumpyType)
  | pyNone
deriving DecidableEq

/-- `read`'s return value: the image alone, or the
`(image, max_value)` pair when `wants_max_intensity` is set. -/
inductive ReadRet
  | img (i : ReadImg)
  | imgMax (i : ReadImg) (mx : Int)
deriving DecidableEq

deriving instance DecidableEq for Except

/-- Everything observable about one `read` call. -/
structure ReadOut where
  compared : List Axis
  logged : List LogMsg
  events : List Event
  ret : Except ReadErr ReadRet
deriving DecidableEq

/-- The numpy dtype of the image inside a `read` result, when there is
an image with a dtype. -/
def retDtype : Except ReadErr ReadRet → Option NumpyType
  | Except.ok (ReadRet.img (ReadImg.native _ dt)) => some dt
  | Except.ok (ReadRet.img (ReadImg.rescaled _ dt)) => some dt
  | Except.ok (ReadRet.imgMax (ReadImg.native _ dt) _) => some dt
  | Except.ok (ReadRet.imgMax (ReadImg.rescaled _ dt) _) => some dt
  | _ => none

/-- numpy dtype column of the `PIXEL_TYPES` row. -/
def npTypeOf (pt : PixelType) : NumpyType := (PIXEL_TYPES pt).npType

/-- Source lines 178-238.  Resolve `c` from `index`, validate bounds
(raising before any fetch on failure), delegate to `read_planes`, then
apply `numpy_image.astype(numpy.float32) / float(max_value)` when
`rescale` is set (values modelled as exact rationals, the float32 dtype
tracked symbolically) and pair with `max_value` when
`wants_max_intensity` is set. -/
def read (meta : PixelsMeta) (fetch : Fetch) (c0 : Option Int) (z t : Int)
    (index : Option Int) (rescale wants_max_intensity : Bool)
    (XYWH : Option Tile) : ReadOut :=
  let c := resolveC c0 index
  let v := validate meta c z t
  match v.message with
  | some _ => ⟨v.compared, v.logged, [], Except.error ReadErr.indexOutOfRange⟩
  | none =>
      let events := (read_planes meta fetch z c t XYWH).1
      let maxv := (PIXEL_TYPES meta.pixelType).range.2
      let ret : Except ReadErr ReadRet :=
        match (read_planes meta fetch z c t XYWH).2 with
        | Except.error _ => Except.error ReadErr.storeEscape
        | Except.ok imgOpt =>
            match rescale, imgOpt with
            | true, none => Except.error ReadErr.noneTypeHasNoAstype
            | true, some a =>
                let img := ReadImg.rescaled
                  (mapAssembled (fun s : Int => (s : ℚ) / (maxv : ℚ)) a)
                  NumpyType.npFloat32
                Except.ok (if wants_max_intensity then ReadRet.imgMax img maxv
                  else ReadRet.img img)
            | false, some a =>
                let img := ReadImg.native a (npTypeOf meta.pixelType)
                Except.ok (if wants_max_intensity then ReadRet.imgMax img maxv
                  else ReadRet.img img)
            | false, none =>
                Except.ok (if wants_max_intensity then ReadRet.imgMax ReadImg.pyNone maxv
                  else ReadRet.img ReadImg.pyNone)
      ⟨v.compared, v.logged, events, ret⟩

/-- C5: with `rescale` disabled, `read` returns the decoded array
unchanged — elementwise identity, native numpy dtype — and when
`wants_max_intensity` is set the caller still receives the scheme's
domain maximum alongside. -/
theorem read_no_rescale_identity (meta : PixelsMeta) (fetch : Fetch)
    (c0 : Option Int) (z t : Int) (xywh : Option Tile) (a : Assembled Int)
    (hv : (validate meta c0 z t).message = none)
    (hrp : (read_planes meta fetch z c0 t xywh).2 = Except.ok (some a)) :
    (read meta fetch c0 z t none false true xywh).ret =
      Except.ok (ReadRet.imgMax (ReadImg.native a (npTypeOf meta.pixelType))
        ((PIXEL_TYPES meta.pixelType).range.2))
    ∧ (read meta fetch c0 z t none false false xywh).ret =
      Except.ok (ReadRet.img (ReadImg.native a (npTypeOf meta.pixelType))) := by
  constructor <;> simp [read, resolveC, hv, hrp]

/-- Concrete C5 check: a 1x1 `uint16` plane holding 5 is returned
untouched with dtype `uint16`, paired with max 65535. -/
def mC5 : PixelsMeta := ⟨1, 1, 1, 1, 1, PixelType.uint16⟩

/-- Fetch oracle for the C5 scenario: the big-endian bytes of 5. -/
def fC5 : Fetch := fun _ _ => Except.ok [0, 5]

theorem read_no_rescale_identity_witness :
    (read mC5 fC5 (some 0) 0 0 none false true none).ret =
      Except.ok (ReadRet.imgMax (ReadImg.native (Assembled.one [[5]])
        (npTypeOf mC5.pixelType)) ((PIXEL_TYPES mC5.pixelType).range.2)) :=
  (read_no_rescale_identity mC5 fC5 (some 0) 0 0 none (Assembled.one [[5]])
    (by decide) (by decide)).1

/-- C4: with `rescale` enabled, `read` converts the array to floating
representation (dtype float32) and divides every element by the scheme's
domain MAXIMUM — not by `max - min` — with no clipping: the domain max is
positive for every pixel type, and any negative native sample maps to a
negative output, outside `[0, 1]`. -/
theorem read_rescale_divides_by_max (meta : PixelsMeta) (fetch : Fetch)
    (c0 : Option Int) (z t : Int) (xywh : Option Tile) (a : Assembled Int)
    (hv : (validate meta c0 z t).message = none)
    (hrp : (read_planes meta fetch z c0 t xywh).2 = Except.ok (some a)) :
    (read meta fetch c0 z t none true false xywh).ret =
      Except.ok (ReadRet.img (ReadImg.rescaled
        (mapAssembled
          (fun s : Int => (s : ℚ) / ((PIXEL_TYPES meta.pixelType).range.2 : ℚ)) a)
        NumpyType.npFloat32))
    ∧ (0 : ℚ) < ((PIXEL_TYPES meta.pixelType).range.2 : ℚ)
    ∧ ∀ s : Int, s < 0 →
        (s : ℚ) / ((PIXEL_TYPES meta.pixelType).range.2 : ℚ) < 0 := by
  have hmaxAll : ∀ pt : PixelType, (0 : Int) < (PIXEL_TYPES pt).range.2 := by
    intro pt
    cases pt <;> decide
  have hmax : (0 : Int) < (PIXEL_TYPES meta.pixelType).range.2 := hmaxAll meta.pixelType
  have hmaxQ : (0 : ℚ) < ((PIXEL_TYPES meta.pixelType).range.2 : ℚ) := by
    exact_mod_cast hmax
  refine ⟨?_, hmaxQ, fun s hs => div_neg_of_neg_of_pos (by exact_mod_cast hs) hmaxQ⟩
  simp [read, resolveC, hv, hrp]

/-- Concrete C4 check: a 1x1 `int16` plane holding -5 rescales to
`-5 / 32767 < 0`. -/
def mC4 : PixelsMeta := ⟨1, 1, 1, 1, 1, PixelType.int16⟩

/-- Fetch oracle for the C4 scenario: the big-endian two's-complement
bytes of -5. -/
def fC4 : Fetch := fun _ _ => Except.ok [255, 251]

theorem read_rescale_divides_by_max_witness :
    (read mC4 fC4 (some 0) 0 0 none true false none).ret =
      Except.ok (ReadRet.img (ReadImg.rescaled
        (mapAssembled
          (fun s : Int => (s : ℚ) / ((PIXEL_TYPES mC4.pixelType).range.2 : ℚ))
          (Assembled.one [[-5]]))
        NumpyType.npFloat32))
    ∧ ((-5 : Int) : ℚ) / ((PIXEL_TYPES mC4.pixelType).range.2 : ℚ) < 0 := by
  have H := read_rescale_divides_by_max mC4 fC4 (some 0) 0 0 none
    (Assembled.one [[-5]]) (by decide) (by decide)
  exact ⟨H.1, H.2.2 (-5) (by decide)⟩

/-- C10: with `rescale` enabled, the dtype of the returned image is
32-bit float for EVERY native pixel type — including `double` planes,
which are narrowed by `astype(numpy.float32)` before the division. -/
theorem read_rescaled_dtype_float32 (meta : PixelsMeta) (fetch : Fetch)
    (c0 : Option Int) (z t : Int) (xywh : Option Tile) (wants : Bool)
    (a : Assembled Int)
    (hv : (validate meta c0 z t).message = none)
    (hrp : (read_planes meta fetch z c0 t xywh).2 = Except.ok (some a)) :
    retDtype (read meta fetch c0 z t none true wants xywh).ret =
      some NumpyType.npFloat32 := by
  cases wants <;> simp [read, resolveC, hv, hrp, retDtype]

/-- Concrete C10 check on a `double` plane: dtype comes back float32. -/
def mC10 : PixelsMeta := ⟨1, 1, 1, 1, 1, PixelType.double⟩

/-- Fetch oracle for the C10 scenario: 8 bytes, bit pattern 7. -/
def fC10 : Fetch := fun _ _ => Except.ok [0, 0, 0, 0, 0, 0, 0, 7]

theorem read_rescaled_dtype_float32_witness :
    retDtype (read mC10 fC10 (some 0) 0 0 none true false none).ret =
      some NumpyType.npFloat32 :=
  read_rescaled_dtype_float32 mC10 fC10 (some 0) 0 0 none false
    (Assembled.one [[7]]) (by decide) (by decide)

theorem validate_compared_eq (meta : PixelsMeta) (c : Option Int) (z t : Int) :
    (validate meta c z t).compared = [Axis.t, Axis.c, Axis.z] := rfl

theorem validate_logged_eq (meta : PixelsMeta) (c : Option Int) (z t : Int) :
    (validate meta c z t).logged =
      (if pyGEInt t meta.sizeT = true then [LogMsg.tExceeds t meta.sizeT] else []) ++
      (if pyGEOpt c meta.sizeC = true then [LogMsg.cExceeds c meta.sizeC] else []) ++
      (if pyGEInt z meta.sizeZ = true then [LogMsg.zExceeds z meta.sizeZ] else []) := rfl

theorem validate_message_eq (meta : PixelsMeta) (c : Option Int) (z t : Int) :
    (validate meta c z t).message =
      if pyGEInt z meta.sizeZ = true then some (LogMsg.zExceeds z meta.sizeZ)
      else if pyGEOpt c meta.sizeC = true then some (LogMsg.cExceeds c meta.sizeC)
      else if pyGEInt t meta.sizeT = true then some (LogMsg.tExceeds t meta.sizeT)
      else none := rfl

theorem read_compared_eq (meta : PixelsMeta) (fetch : Fetch) (c0 : Option Int)
    (z t : Int) (index : Option Int) (resc wants : Bool) (xywh : Option Tile) :
    (read meta fetch c0 z t index resc wants xywh).compared =
      [Axis.t, Axis.c, Axis.z] := by
  rcases hm : (validate meta (resolveC c0 index) z t).message with _ | m <;>
    simp [read, hm, validate_compared_eq]

theorem read_logged_eq (meta : PixelsMeta) (fetch : Fetch) (c0 : Option Int)
    (z t : Int) (index : Option Int) (resc wants : Bool) (xywh : Option Tile) :
    (read meta fetch c0 z t index resc wants xywh).logged =
      (validate meta (resolveC c0 index) z t).logged := by
  rcases hm : (validate meta (resolveC c0 index) z t).message with _ | m <;>
    simp [read, hm]

/-- C8 (amended): `read` evaluates ALL THREE bounds comparisons `t`, `c`,
`z` unconditionally, in source order — a `None` channel is compared too,
but under the Python-2 ordering `None` is below every integer, so it
never registers as out of range and never logs.  Each out-of-range
(non-`None`) axis logs a message naming the axis, the requested value and
the declared size; if any check fired, the call raises before any
raw-buffer fetch. -/
theorem read_bounds_validation (meta : PixelsMeta) (fetch : Fetch)
    (c0 : Option Int) (z t : Int) (index : Option Int)
    (resc wants : Bool) (xywh : Option Tile) :
    (read meta fetch c0 z t index resc wants xywh).compared =
      [Axis.t, Axis.c, Axis.z]
    ∧ (pyGEInt t meta.sizeT = true →
        LogMsg.tExceeds t meta.sizeT ∈
          (read meta fetch c0 z t index resc wants xywh).logged)
    ∧ (pyGEOpt (resolveC c0 index) meta.sizeC = true →
        LogMsg.cExceeds (resolveC c0 index) meta.sizeC ∈
          (read meta fetch c0 z t index resc wants xywh).logged)
    ∧ (pyGEInt z meta.sizeZ = true →
        LogMsg.zExceeds z meta.sizeZ ∈
          (read meta fetch c0 z t index resc wants xywh).logged)
    ∧ (resolveC c0 index = none → ∀ cv sc,
        LogMsg.cExceeds cv sc ∉
          (read meta fetch c0 z t index resc wants xywh).logged)
    ∧ ((pyGEInt t meta.sizeT || pyGEOpt (resolveC c0 index) meta.sizeC ||
          pyGEInt z meta.sizeZ) = true →
        (read meta fetch c0 z t index resc wants xywh).events = []
        ∧ (read meta fetch c0 z t index resc wants xywh).ret =
            Except.error ReadErr.indexOutOfRange) := by
  refine ⟨read_compared_eq meta fetch c0 z t index resc wants xywh,
    fun htB => ?_, fun hcB => ?_, fun hzB => ?_,
    fun hcn cv sc hmem => ?_, fun hbad => ?_⟩
  · simp [read_logged_eq, validate_logged_eq, htB]
  · simp [read_logged_eq, validate_logged_eq, hcB]
  · simp [read_logged_eq, validate_logged_eq, hzB]
  · have hfalse : pyGEOpt (resolveC c0 index) meta.sizeC = false := by
      rw [hcn]
      rfl
    rw [read_logged_eq, validate_logged_eq, hfalse] at hmem
    cases htB : pyGEInt t meta.sizeT <;> cases hzB : pyGEInt z meta.sizeZ <;>
      simp [htB, hzB] at hmem
  · rcases hex : (validate meta (resolveC c0 index) z t).message with _ | m
    · exfalso
      rw [validate_message_eq] at hex
      by_cases h1 : pyGEInt z meta.sizeZ = true
      · rw [if_pos h1] at hex
        exact Option.some_ne_none _ hex
      · rw [if_neg h1] at hex
        by_cases h2 : pyGEOpt (resolveC c0 index) meta.sizeC = true
        · rw [if_pos h2] at hex
          exact Option.some_ne_none _ hex
        · rw [if_neg h2] at hex
          by_cases h3 : pyGEInt t meta.sizeT = true
          · rw [if_pos h3] at hex
            exact Option.some_ne_none _ hex
          · simp only [Bool.not_eq_true] at h1 h2 h3
            rw [h1, h2, h3] at hbad
            simp at hbad
    · constructor <;> simp [read, hex]

/-- 1x1 uint8 image with 3 channels, 3 timepoints, 1 z-slice, used for
the C8 scenarios. -/
def mC8 : PixelsMeta := ⟨1, 1, 1, 3, 3, PixelType.uint8⟩

/-- Always-succeeding fetch oracle. -/
def fOK : Fetch := fun _ _ => Except.ok [0]

/-- C8 counterexample: calling `read` with `c = None` (multichannel mode)
still evaluates the `c >= sizeC` comparison — the source compares all
three axes unconditionally, so the claim that a `None` index is never
compared is false. -/
theorem read_compares_none_channel :
    Axis.c ∈ (read mC8 fOK none 0 0 none true false none).compared := by decide

/-- Concrete instance of the amended C8 theorem: `t = 5` on `size_t = 3`
logs the t-axis message with value 5 and bound 3, performs no fetch, and
raises. -/
theorem read_bounds_validation_witness :
    LogMsg.tExceeds 5 3 ∈ (read mC8 fOK (some 0) 0 5 none true false none).logged
    ∧ (read mC8 fOK (some 0) 0 5 none true false none).events = []
    ∧ (read mC8 fOK (some 0) 0 5 none true false none).ret =
        Except.error ReadErr.indexOutOfRange := by
  obtain ⟨h1, h2, h3, h4, h5, h6⟩ :=
    read_bounds_validation mC8 fOK (some 0) 0 5 none true false none
  exact ⟨h2 (by decide), (h6 (by decide)).1, (h6 (by decide)).2⟩

end OmeroReader
